import Mathlib

/-!
# Heuristic worker pipeline: a shallow embedding

A verification development for `heuristic_worker.py`, the incremental,
parallel scoring pipeline of the avrae-nlp-dataset-exploration repository.
The pipeline reads combat directories of gzipped, line-delimited JSON event
logs, applies a scalar heuristic to each combat's event sequence, and
persists a checksum-tagged, score-sorted result table.

Modelling conventions:
* A decoded JSON event (`dict` in the source) is an association list of
  string fields; the pipeline treats events as opaque values.
* `json.loads` on one line is a supplied decoder `parse : String → Option
  Event`; `none` models a raised `json.JSONDecodeError`.
* Raised exceptions are modelled with `Except String`; the error string
  names the Python exception.
* Scores (`float` in the source) are modelled as `ℚ`: the pipeline core
  only compares and sorts scores, never computes with them.
* Python's `sorted` / `list.sort` are stable sorts; they are modelled by
  `List.insertionSort`, which is stable for the same boolean comparison.
* `dirhash.dirhash` is an external content-hashing primitive (out of the
  core); the computed dataset checksum enters the model as a given string.
-/

namespace HeuristicWorker

/-- One event: a decoded line of a log file (a JSON object, modelled as an
association list of named fields). Opaque to the pipeline core. -/
abbrev Event := List (String × String)

/-- A scoring heuristic: a pure function from an event sequence to a score
(`Callable[[Iterable[Event]], float]` in the source). -/
abbrev Heuristic := List Event → ℚ

/-- The content of one on-disk file: either corrupt at the compressed
container level (reading raises `gzip.BadGzipFile`) or a valid gzip
container holding a list of raw text lines. -/
inductive FileContent where
  | corrupt
  | valid (lines : List String)
deriving DecidableEq, Repr

/-- One combat directory: its files as (filename, content) pairs in
on-disk (directory enumeration) order. Filenames in a directory are
unique. -/
abbrev Dir := List (String × FileContent)

/-- Decoding the lines of a valid container: `json.loads(line)` for each
line, one independent record per line. A malformed line raises
`json.JSONDecodeError`; `read_gzipped_file`'s `except` clause matches only
`gzip.BadGzipFile`, so the decode error propagates to the caller. -/
def decode_lines (parse : String → Option Event) : List String → Except String (List Event)
  | [] => .ok []
  | l :: ls =>
    match parse l with
    | none => .error ("JSONDecodeError: " ++ l)
    | some e =>
      match decode_lines parse ls with
      | .error msg => .error msg
      | .ok es => .ok (e :: es)

/-- `read_gzipped_file`: yields the events of one gzipped file.
Returns (events, warnings): a corrupt container is caught
(`except gzip.BadGzipFile`), contributes zero events and logs one warning
naming the file; a malformed line in a valid container is not caught and
propagates as an error. -/
def read_gzipped_file (parse : String → Option Event) (fp : String) (c : FileContent) :
    Except String (List Event × List String) :=
  match c with
  | .corrupt => .ok ([], ["Could not read file " ++ fp])
  | .valid ls =>
    match decode_lines parse ls with
    | .error msg => .error msg
    | .ok es => .ok (es, [])

/-- Lexicographic comparison of character lists by code point: how Python
compares the strings `sorted` sorts. Defined directly (rather than through
the library's string order) so that it computes by structural recursion. -/
def chars_le : List Char → List Char → Bool
  | [], _ => true
  | _ :: _, [] => false
  | a :: as, b :: bs =>
    if a = b then chars_le as bs else decide (a.toNat < b.toNat)

/-- `a <= b` on Python strings: code-point lexicographic order. -/
def str_le (a b : String) : Bool :=
  chars_le a.data b.data

/-- `glob.glob("*.gz", root_dir=dirpath)` membership: the name ends in
".gz" and is not hidden (glob's `*` does not match a leading dot). Stated
over the character list so that it computes by structural recursion. -/
def matches_gz_glob (name : String) : Bool :=
  (name.data.reverse.take 3 == ['z', 'g', '.']) && !(name.data.head? == some '.')

/-- The glob results for one combat directory, in on-disk order. -/
def glob_gz (d : Dir) : List (String × FileContent) :=
  d.filter (fun f => matches_gz_glob f.1)

/-- The files `combat_dir_iterator` visits: the glob results sorted
lexicographically by filename (`sorted(glob.glob(...))`). Filenames within
a directory are unique, so sorting (name, content) pairs by name agrees
with sorting the name list and then reading each file. -/
def sorted_gz_files (d : Dir) : List (String × FileContent) :=
  (glob_gz d).insertionSort (fun a b => str_le a.1 b.1 = true)

/-- Reading a list of files in order and concatenating their events (and
warnings): the body of `combat_dir_iterator`'s loop. -/
def reads_concat (parse : String → Option Event) :
    List (String × FileContent) → Except String (List Event × List String)
  | [] => .ok ([], [])
  | f :: fs =>
    match read_gzipped_file parse f.1 f.2 with
    | .error e => .error e
    | .ok r =>
      match reads_concat parse fs with
      | .error e => .error e
      | .ok rest => .ok (r.1 ++ rest.1, r.2 ++ rest.2)

/-- `combat_dir_iterator`: all events in a combat directory, concatenated
over its `.gz` files in lexicographically sorted filename order. -/
def combat_dir_iterator (parse : String → Option Event) (d : Dir) :
    Except String (List Event × List String) :=
  reads_concat parse (sorted_gz_files d)

/-- `worker_entrypoint`: applies the heuristic to one combat directory,
returning (directory basename, score). -/
def worker_entrypoint (parse : String → Option Event) (heuristic : Heuristic)
    (dirname : String) (d : Dir) : Except String (String × ℚ) :=
  match combat_dir_iterator parse d with
  | .error e => .error e
  | .ok r => .ok (dirname, heuristic r.1)

/-- Attribute names of the `heuristics` package module object: the two
typing imports and the `Heuristic` alias of `heuristics/__init__.py`, the
three submodules bound by its `from .X import …` statements, the six
heuristic functions those statements import, `__all__`, and the standard
module attributes. `getattr(heuristics, name)` succeeds exactly for these
names. -/
def heuristics_module_attrs : List String :=
  ["event_count", "message_count", "message_to_command_ratio", "average_message_length",
   "avg_num_words_between_commands", "num_participants",
   "Callable", "Iterable", "Heuristic", "count", "ratio", "zhu",
   "__all__", "__name__", "__doc__", "__package__", "__loader__", "__spec__",
   "__path__", "__file__", "__builtins__", "__dict__", "__class__"]

/-- `heuristics.__all__` (lines 9–16 of `heuristics/__init__.py`): the
registered heuristic implementations. -/
def heuristics_all : List String :=
  ["event_count", "message_count", "message_to_command_ratio", "average_message_length",
   "avg_num_words_between_commands", "num_participants"]

/-- `get_heuristic(name)` = `getattr(heuristics, name)`: succeeds for any
attribute of the module (returning that attribute, here represented by its
name); an unknown attribute raises `AttributeError`. The semantics of the
returned scoring function enters the pipeline model as the separate
`heuristic` parameter of `run_cli`, since the implementations live in the
`heuristics` submodules outside the pipeline core. -/
def get_heuristic (name : String) : Except String String :=
  if heuristics_module_attrs.contains name then .ok name
  else .error ("AttributeError: " ++ name)

/-- The persisted result table file, parsed as CSV rows (each row a list
of fields); `none` models an absent file (`FileNotFoundError` on open). -/
abbrev ResultFileState := Option (List (List String))

/-- The cache-consultation step of `run_cli` (the `try` block): read the
existing table's first CSV row with `_, existing_checksum = next(reader)`
and compare. Only `FileNotFoundError` is caught (`.ok false`, a miss):
`next` on an empty file raises `StopIteration`, and unpacking a first row
without exactly two fields raises `ValueError`; both propagate. -/
def cache_check (file : ResultFileState) (dataset_checksum : String) : Except String Bool :=
  match file with
  | none => .ok false
  | some [] => .error "StopIteration"
  | some (row :: _) =>
    match row with
    | [_, existing_checksum] => .ok (existing_checksum == dataset_checksum)
    | _ => .error "ValueError"

/-- `results.sort(key=lambda pair: pair[1])`: Python's stable sort by
score, modelled by stable insertion sort with the same comparison. -/
def sort_results (results : List (String × ℚ)) : List (String × ℚ) :=
  results.insertionSort (fun a b => a.2 ≤ b.2)

/-- The rows written by `run_cli`: the `("checksum", dataset_checksum)`
header followed by one `(unit, score)` row per result. -/
def result_rows (dataset_checksum : String) (results : List (String × ℚ)) : List (List String) :=
  ["checksum", dataset_checksum] :: results.map (fun p => [p.1, toString p.2])

/-- The world `run_cli` runs against: the combat directories under
`data/` in directory-enumeration (`os.scandir`) order, the state of the
result table file, and the dataset checksum `dirhash.dirhash(data_dir_path,
"md5", match=("*.gz",), jobs=…)` computes (an external content-hashing
primitive, entering the model as its output string). -/
structure DatasetState where
  combat_dirs : List (String × Dir)
  result_file : ResultFileState
  dataset_checksum : String

/-- `get_combat_dirs`: the unit directories in `os.scandir` order. -/
def get_combat_dirs (st : DatasetState) : List (String × Dir) :=
  st.combat_dirs

/-- The scoring job for input index `i`: `worker_entrypoint` on the i-th
combat directory. -/
def jobs (parse : String → Option Event) (heuristic : Heuristic)
    (dirs : List (String × Dir)) (i : Nat) : Except String (String × ℚ) :=
  match dirs[i]? with
  | some nd => worker_entrypoint parse heuristic nd.1 nd.2
  | none => .error "IndexError"

/-- Worker results as they arrive: jobs complete in schedule order, each
tagged with its input index. -/
def completions (f : Nat → Except String (String × ℚ)) (sched : List Nat) :
    List (Nat × Except String (String × ℚ)) :=
  sched.map (fun i => (i, f i))

/-- Reassembly of completed jobs into input order, as the executor's `map`
does when the caller iterates its result. -/
def gather (n : Nat) (done : List (Nat × Except String (String × ℚ))) :
    List (Except String (String × ℚ)) :=
  (List.range n).map (fun i =>
    match done.find? (fun p => p.1 == i) with
    | some p => p.2
    | none => .error "lost result")

/-- Consuming the executor map's result: yields the job results in input
order and re-raises the first failed job's exception. -/
def collect : List (Except String (String × ℚ)) → Except String (List (String × ℚ))
  | [] => .ok []
  | r :: rs =>
    match r with
    | .error e => .error e
    | .ok x =>
      match collect rs with
      | .error e => .error e
      | .ok xs => .ok (x :: xs)

/-- `tqdm.contrib.concurrent.process_map(entrypoint, dirs, chunksize=10)`:
workers complete jobs in an arbitrary completion order `sched` (worker-pool
size and chunking only influence that order); the returned list is in input
order, and the first worker exception in input order propagates to the
caller. -/
def process_map (parse : String → Option Event) (heuristic : Heuristic)
    (dirs : List (String × Dir)) (sched : List Nat) : Except String (List (String × ℚ)) :=
  collect (gather dirs.length (completions (jobs parse heuristic dirs) sched))

/-- How one invocation ends: a cache hit (prints the existing table's
location and returns), a completed scoring run, or an unhandled exception
terminating the process. -/
inductive RunOutcome where
  | cache_hit
  | completed
  | fatal (msg : String)
deriving DecidableEq, Repr

/-- `run_cli`, parameterized over the heuristic name (a constant with a
`# todo make this read from CLI` in the source) and the semantics of the
selected heuristic. Steps, in source order: look the heuristic up, hash the
dataset (the checksum in `st`), consult the cache, dispatch scoring,
stable-sort by score, write header plus rows (creating parent directories;
a direct overwrite). Returns the outcome and the result file afterwards. -/
def run_cli (parse : String → Option Event) (heuristic : Heuristic)
    (heuristic_name : String) (sched : List Nat) (st : DatasetState) :
    RunOutcome × ResultFileState :=
  match get_heuristic heuristic_name with
  | .error e => (.fatal e, st.result_file)
  | .ok _ =>
    match cache_check st.result_file st.dataset_checksum with
    | .error e => (.fatal e, st.result_file)
    | .ok true => (.cache_hit, st.result_file)
    | .ok false =>
      match process_map parse heuristic (get_combat_dirs st) sched with
      | .error e => (.fatal e, st.result_file)
      | .ok results =>
        (.completed, some (result_rows st.dataset_checksum (sort_results results)))

/-! ## Order lemmas for the code-point comparison -/

theorem char_toNat_injective {a b : Char} (h : a.toNat = b.toNat) : a = b :=
  Char.ext (UInt32.toNat.inj h)

theorem chars_le_total : ∀ as bs : List Char, chars_le as bs = true ∨ chars_le bs as = true
  | [], _ => .inl rfl
  | _ :: _, [] => .inr rfl
  | a :: as, b :: bs => by
    by_cases hab : a = b
    · subst hab
      simpa [chars_le] using chars_le_total as bs
    · have hne : a.toNat ≠ b.toNat := fun hn => hab (char_toNat_injective hn)
      rcases Nat.lt_or_ge a.toNat b.toNat with hlt | hge
      · left
        simp [chars_le, hab, hlt]
      · right
        have hba : b.toNat < a.toNat := by omega
        have hbna : ¬b = a := fun h => hab h.symm
        simp [chars_le, hbna, hba]

theorem chars_le_trans : ∀ as bs cs : List Char,
    chars_le as bs = true → chars_le bs cs = true → chars_le as cs = true
  | [], _, _, _, _ => rfl
  | _ :: _, [], _, h1, _ => by simp [chars_le] at h1
  | _ :: _, _ :: _, [], _, h2 => by simp [chars_le] at h2
  | a :: as, b :: bs, c :: cs, h1, h2 => by
    by_cases hab : a = b <;> by_cases hbc : b = c
    · subst hab; subst hbc
      simp only [chars_le, if_pos rfl] at h1 h2 ⊢
      exact chars_le_trans as bs cs h1 h2
    · subst hab
      simp only [chars_le, if_pos rfl] at h1
      simpa [chars_le, hbc] using h2
    · subst hbc
      simpa [chars_le, hab] using h1
    · simp only [chars_le, if_neg hab, decide_eq_true_eq] at h1
      simp only [chars_le, if_neg hbc, decide_eq_true_eq] at h2
      have hac : a.toNat < c.toNat := Nat.lt_trans h1 h2
      have hne : a ≠ c := fun h => by subst h; omega
      simp [chars_le, hne, hac]

theorem chars_le_antisymm : ∀ as bs : List Char,
    chars_le as bs = true → chars_le bs as = true → as = bs
  | [], [], _, _ => rfl
  | [], _ :: _, _, h2 => by simp [chars_le] at h2
  | _ :: _, [], h1, _ => by simp [chars_le] at h1
  | a :: as, b :: bs, h1, h2 => by
    by_cases hab : a = b
    · subst hab
      simp only [chars_le, if_pos rfl] at h1 h2
      rw [chars_le_antisymm as bs h1 h2]
    · exfalso
      have hbna : ¬b = a := fun h => hab h.symm
      simp only [chars_le, if_neg hab, decide_eq_true_eq] at h1
      simp only [chars_le, if_neg hbna, decide_eq_true_eq] at h2
      omega

theorem str_le_total (a b : String) : str_le a b = true ∨ str_le b a = true :=
  chars_le_total a.data b.data

theorem str_le_trans {a b c : String} (h1 : str_le a b = true) (h2 : str_le b c = true) :
    str_le a c = true :=
  chars_le_trans a.data b.data c.data h1 h2

theorem str_le_antisymm {a b : String} (h1 : str_le a b = true) (h2 : str_le b a = true) :
    a = b :=
  congrArg String.mk (chars_le_antisymm a.data b.data h1 h2)

/-! ## Decoding lemmas -/

theorem decode_lines_all_some (parse : String → Option Event) :
    ∀ ls : List String, (∀ l ∈ ls, (parse l).isSome) →
      decode_lines parse ls = .ok (ls.filterMap parse)
  | [], _ => rfl
  | l :: ls, h => by
    obtain ⟨e, he⟩ := Option.isSome_iff_exists.mp (h l (by simp))
    have ih := decode_lines_all_some parse ls (fun x hx => h x (by simp [hx]))
    simp [decode_lines, he, ih]

theorem decode_lines_has_bad (parse : String → Option Event) :
    ∀ ls : List String, (∃ l ∈ ls, parse l = none) →
      ∃ msg, decode_lines parse ls = .error msg
  | [], h => by simp at h
  | l :: ls, h => by
    cases hl : parse l with
    | none => exact ⟨"JSONDecodeError: " ++ l, by simp [decode_lines, hl]⟩
    | some e =>
      have hrest : ∃ x ∈ ls, parse x = none := by
        rcases h with ⟨x, hx, hpx⟩
        rcases List.mem_cons.mp hx with rfl | hx'
        · rw [hl] at hpx; cases hpx
        · exact ⟨x, hx', hpx⟩
      obtain ⟨msg, hmsg⟩ := decode_lines_has_bad parse ls hrest
      exact ⟨msg, by simp [decode_lines, hl, hmsg]⟩

/-! ## Concrete fixtures used by witnesses and counterexamples -/

instance exceptDecEq {ε α : Type} [DecidableEq ε] [DecidableEq α] :
    DecidableEq (Except ε α) := fun a b =>
  match a, b with
  | .error e, .error e' =>
    match decEq e e' with
    | isTrue h => isTrue (by rw [h])
    | isFalse h => isFalse (fun hc => h (by cases hc; rfl))
  | .error _, .ok _ => isFalse (fun hc => by cases hc)
  | .ok _, .error _ => isFalse (fun hc => by cases hc)
  | .ok x, .ok y =>
    match decEq x y with
    | isTrue h => isTrue (by rw [h])
    | isFalse h => isFalse (fun hc => h (by cases hc; rfl))

/-- A concrete decoder: the line "ok" decodes to a one-field event, every
other line is malformed. -/
def parse_fix : String → Option Event := fun s =>
  if s == "ok" then some [("type", "message")] else none

/-- A concrete decoder that accepts every line. -/
def parse_any : String → Option Event := fun _ => some []

/-- A concrete heuristic giving every unit the same score. -/
def heuristic_const : Heuristic := fun _ => 0

/-- A concrete heuristic scoring a unit by its number of events. -/
def heuristic_count : Heuristic := fun evs => (evs.length : ℚ)

/-! ## C8 -/

/-- C8: on a valid compressed container each line is decoded as one
independent record; if every line parses, the reader yields exactly the
per-line decodings (and no warning), while a single malformed line makes
the whole read fail with a decode error that propagates to the caller
rather than being skipped with a warning. -/
theorem C8_malformed_line_propagates (parse : String → Option Event)
    (fp : String) (ls : List String) :
    ((∀ l ∈ ls, (parse l).isSome) →
      read_gzipped_file parse fp (.valid ls) = .ok (ls.filterMap parse, []))
    ∧ ((∃ l ∈ ls, parse l = none) →
      ∃ msg, read_gzipped_file parse fp (.valid ls) = .error msg) := by
  constructor
  · intro h
    simp [read_gzipped_file, decode_lines_all_some parse ls h]
  · intro h
    obtain ⟨msg, hmsg⟩ := decode_lines_has_bad parse ls h
    exact ⟨msg, by simp [read_gzipped_file, hmsg]⟩

/-- Witness for C8 at concrete inputs. -/
theorem C8_malformed_line_propagates_witness :
    read_gzipped_file parse_fix "f.gz" (.valid ["ok"]) =
      .ok ([[("type", "message")]], [])
    ∧ ∃ msg, read_gzipped_file parse_fix "g.gz" (.valid ["ok", "bad"]) = .error msg :=
  ⟨(C8_malformed_line_propagates parse_fix "f.gz" ["ok"]).1 (by decide),
   (C8_malformed_line_propagates parse_fix "g.gz" ["ok", "bad"]).2
     ⟨"bad", by decide, by decide⟩⟩

/-! ## C3 -/

/-- C3: a file whose compressed container is corrupt contributes zero
events and one warning naming it, and a unit holding one corrupt file and
one valid file is scored on exactly the valid file's events — aggregation
continues, the unit is not aborted. -/
theorem C3_corrupt_container_skipped (parse : String → Option Event)
    (heuristic : Heuristic) (dirname cname vname : String)
    (ls : List String) (evs : List Event)
    (hc : matches_gz_glob cname = true) (hv : matches_gz_glob vname = true)
    (hdec : decode_lines parse ls = .ok evs) :
    (∀ fp, read_gzipped_file parse fp .corrupt =
      .ok ([], ["Could not read file " ++ fp]))
    ∧ worker_entrypoint parse heuristic dirname [(cname, .corrupt), (vname, .valid ls)]
        = .ok (dirname, heuristic evs) := by
  refine ⟨fun fp => rfl, ?_⟩
  unfold worker_entrypoint combat_dir_iterator sorted_gz_files glob_gz
  simp only [List.filter_cons, hc, hv, List.filter_nil, if_pos]
  by_cases hle : str_le cname vname = true
  · simp [List.insertionSort, List.orderedInsert, hle, reads_concat,
      read_gzipped_file, hdec]
  · simp [List.insertionSort, List.orderedInsert, hle, reads_concat,
      read_gzipped_file, hdec]

/-- Witness for C3 at concrete inputs. -/
theorem C3_corrupt_container_skipped_witness :
    read_gzipped_file parse_fix "c.gz" .corrupt =
      .ok ([], ["Could not read file c.gz"])
    ∧ worker_entrypoint parse_fix heuristic_count "unit1"
        [("c.gz", .corrupt), ("a.gz", .valid ["ok"])]
        = .ok ("unit1", heuristic_count [[("type", "message")]]) :=
  ⟨(C3_corrupt_container_skipped parse_fix heuristic_count "unit1" "c.gz" "a.gz"
      ["ok"] [[("type", "message")]] (by decide) (by decide) (by decide)).1 "c.gz",
   (C3_corrupt_container_skipped parse_fix heuristic_count "unit1" "c.gz" "a.gz"
      ["ok"] [[("type", "message")]] (by decide) (by decide) (by decide)).2⟩

/-! ## C5 -/

/-- Sorting the glob results by filename is invariant under permuting the
on-disk enumeration order, as long as filenames are unique. -/
theorem sorted_gz_files_perm_eq {d d' : Dir} (hperm : d.Perm d')
    (hnd : (d.map Prod.fst).Nodup) : sorted_gz_files d = sorted_gz_files d' := by
  have hpg : (glob_gz d).Perm (glob_gz d') := hperm.filter _
  have hps : (sorted_gz_files d).Perm (sorted_gz_files d') :=
    ((List.perm_insertionSort _ _).trans hpg).trans (List.perm_insertionSort _ _).symm
  have hndg : ((glob_gz d).map Prod.fst).Nodup :=
    List.Nodup.sublist (List.Sublist.map Prod.fst (List.filter_sublist d)) hnd
  have hnds : ((sorted_gz_files d).map Prod.fst).Nodup :=
    (((List.perm_insertionSort _ _).map Prod.fst).nodup_iff).mpr hndg
  have hnds' : ((sorted_gz_files d').map Prod.fst).Nodup :=
    ((hps.symm.map Prod.fst).nodup_iff).mpr hnds
  haveI : IsTotal (String × FileContent) (fun a b => str_le a.1 b.1 = true) :=
    ⟨fun a b => str_le_total a.1 b.1⟩
  haveI : IsTrans (String × FileContent) (fun a b => str_le a.1 b.1 = true) :=
    ⟨fun _ _ _ h1 h2 => str_le_trans h1 h2⟩
  haveI : IsAntisymm (String × FileContent)
      (fun a b => (str_le a.1 b.1 = true) ∧ a.1 ≠ b.1) :=
    ⟨fun a b hab hba => absurd (str_le_antisymm hab.1 hba.1) hab.2⟩
  have hs : (sorted_gz_files d).Pairwise (fun a b => str_le a.1 b.1 = true) :=
    List.sorted_insertionSort _ _
  have hs' : (sorted_gz_files d').Pairwise (fun a b => str_le a.1 b.1 = true) :=
    List.sorted_insertionSort _ _
  have hne : (sorted_gz_files d).Pairwise (fun a b => a.1 ≠ b.1) :=
    List.pairwise_map.mp hnds
  have hne' : (sorted_gz_files d').Pairwise (fun a b => a.1 ≠ b.1) :=
    List.pairwise_map.mp hnds'
  exact List.eq_of_perm_of_sorted hps (hs.and hne) (hs'.and hne')

/-- C5: aggregation reads a unit's matching files in lexicographically
sorted filename order — permuting the on-disk order never changes the
aggregated sequence; a unit holding `b.gz` before `a.gz` on disk yields
`events(a.gz) ++ events(b.gz)`; and a unit with zero matching files yields
the empty event sequence, not an error. -/
theorem C5_unit_aggregation (parse : String → Option Event) (d d' : Dir)
    (na nb : String) (la lb : List String) (ea eb : List Event)
    (hperm : d.Perm d') (hnd : (d.map Prod.fst).Nodup)
    (hna : matches_gz_glob na = true) (hnb : matches_gz_glob nb = true)
    (hab : str_le na nb = true) (hne : na ≠ nb)
    (hda : decode_lines parse la = .ok ea) (hdb : decode_lines parse lb = .ok eb) :
    combat_dir_iterator parse d = combat_dir_iterator parse d'
    ∧ combat_dir_iterator parse [(nb, .valid lb), (na, .valid la)] = .ok (ea ++ eb, [])
    ∧ (glob_gz d = [] → combat_dir_iterator parse d = .ok ([], [])) := by
  refine ⟨?_, ?_, ?_⟩
  · unfold combat_dir_iterator
    rw [sorted_gz_files_perm_eq hperm hnd]
  · have hba : str_le nb na = false := by
      by_cases h : str_le nb na = true
      · exact absurd (str_le_antisymm h hab) (fun hq => hne hq.symm)
      · simpa using h
    unfold combat_dir_iterator sorted_gz_files glob_gz
    simp only [List.filter_cons, hna, hnb, List.filter_nil, if_pos]
    simp [List.insertionSort, List.orderedInsert, hba, reads_concat,
      read_gzipped_file, hda, hdb]
  · intro hempty
    unfold combat_dir_iterator sorted_gz_files
    rw [hempty]
    rfl

/-- Witness for C5 at concrete inputs: the directory `[b.gz, a.gz]` in
on-disk order, its permutation, and a third conjunct for the empty case. -/
theorem C5_unit_aggregation_witness :
    combat_dir_iterator parse_fix
        [("b.gz", .valid ["ok"]), ("a.gz", .valid [])]
      = combat_dir_iterator parse_fix
        [("a.gz", .valid []), ("b.gz", .valid ["ok"])]
    ∧ combat_dir_iterator parse_fix
        [("b.gz", .valid ["ok"]), ("a.gz", .valid [])]
      = .ok ([] ++ [[("type", "message")]], [])
    ∧ (glob_gz [("b.gz", FileContent.valid ["ok"]), ("a.gz", FileContent.valid [])] = [] →
        combat_dir_iterator parse_fix
          [("b.gz", .valid ["ok"]), ("a.gz", .valid [])] = .ok ([], [])) :=
  C5_unit_aggregation parse_fix
    [("b.gz", .valid ["ok"]), ("a.gz", .valid [])]
    [("a.gz", .valid []), ("b.gz", .valid ["ok"])]
    "a.gz" "b.gz" [] ["ok"] [] [[("type", "message")]]
    (List.Perm.swap _ _ _) (by decide) (by decide) (by decide)
    (by decide) (by decide) (by decide) (by decide)

/-! ## C2 -/

/-- Counterexample to C2: two units with equal scores are written in the
order the dataset enumeration produced them ("u3" before "u2"), although
"u2" is the lexicographically smaller identifier — the claimed
identifier tie-break does not hold. -/
theorem C2_counterexample :
    run_cli parse_any heuristic_const "message_to_command_ratio" [0, 1]
      ⟨[("u3", []), ("u2", [])], none, "c"⟩ =
      (.completed, some [["checksum", "c"], ["u3", "0"], ["u2", "0"]])
    ∧ str_le "u2" "u3" = true ∧ "u2" ≠ "u3" := by decide

/-- C2 amended: the writer sorts rows ascending by score with a stable
sort, so rows with equal scores keep their relative order from the
collected results — the unit-directory enumeration order — rather than
being tie-broken by identifier. -/
theorem C2_amended_stable_score_sort (results : List (String × ℚ))
    (a b : String × ℚ) (hsub : List.Sublist [a, b] results) (hle : a.2 ≤ b.2) :
    (sort_results results).Pairwise (fun p q => p.2 ≤ q.2)
    ∧ (sort_results results).Perm results
    ∧ List.Sublist [a, b] (sort_results results) := by
  refine ⟨?_, List.perm_insertionSort _ _, ?_⟩
  · haveI : IsTotal (String × ℚ) (fun p q => p.2 ≤ q.2) := ⟨fun p q => le_total p.2 q.2⟩
    haveI : IsTrans (String × ℚ) (fun p q => p.2 ≤ q.2) :=
      ⟨fun _ _ _ h1 h2 => le_trans h1 h2⟩
    exact List.sorted_insertionSort _ _
  · exact List.pair_sublist_insertionSort hle hsub

/-- Witness for C2's amended statement at a concrete equal-score input. -/
theorem C2_amended_stable_score_sort_witness :
    (sort_results [("u3", 0), ("u2", 0)]).Pairwise (fun p q => p.2 ≤ q.2)
    ∧ (sort_results [("u3", 0), ("u2", 0)]).Perm [("u3", 0), ("u2", 0)]
    ∧ List.Sublist [("u3", (0 : ℚ)), ("u2", 0)] (sort_results [("u3", 0), ("u2", 0)]) :=
  C2_amended_stable_score_sort [("u3", 0), ("u2", 0)] ("u3", 0) ("u2", 0)
    (List.Sublist.refl _) (le_refl 0)

/-! ## C1 -/

/-- Counterexample to C1: an existing but malformed (empty) result table
file is not treated as a cache miss — `next(reader)` raises
`StopIteration`, only `FileNotFoundError` is caught, and the run aborts
because of the corrupt cache file. -/
theorem C1_counterexample :
    run_cli parse_any heuristic_const "message_to_command_ratio" [0]
      ⟨[("u1", [])], some [], "c"⟩ = (.fatal "StopIteration", some []) := by decide

/-- C1 amended: only a missing result table is a silent cache miss. An
existing malformed table aborts the run — empty file: `StopIteration`;
first row without exactly two fields: `ValueError` — while a two-field
first row whose checksum differs is a genuine miss (computation
proceeds and will overwrite). -/
theorem C1_amended_cache_read (c x e : String) (row : List String)
    (rest : List (List String)) (hrow : row.length ≠ 2) (hne : e ≠ c) :
    cache_check none c = .ok false
    ∧ cache_check (some []) c = .error "StopIteration"
    ∧ cache_check (some (row :: rest)) c = .error "ValueError"
    ∧ cache_check (some ([x, e] :: rest)) c = .ok false := by
  refine ⟨rfl, rfl, ?_, ?_⟩
  · match row, hrow with
    | [], _ => rfl
    | [_], _ => rfl
    | _ :: _ :: _ :: _, _ => rfl
    | [_, _], h => exact absurd rfl h
  · have : (e == c) = false := beq_eq_false_iff_ne.mpr hne
    simp [cache_check, this]

/-- Witness for C1's amended statement at concrete inputs. -/
theorem C1_amended_cache_read_witness :
    cache_check none "c" = .ok false
    ∧ cache_check (some []) "c" = .error "StopIteration"
    ∧ cache_check (some ([["checksum"]] )) "c" = .error "ValueError"
    ∧ cache_check (some [["checksum", "stale"]]) "c" = .ok false := by
  have h := C1_amended_cache_read "c" "checksum" "stale" ["checksum"] []
    (by decide) (by decide)
  exact h

/-! ## C10 -/

/-- Counterexample to C10: an existing file whose first row is
`checksum,c,x` — its second field equals the current fingerprint — is not
a cache hit: unpacking a three-field row raises `ValueError` and the run
aborts. -/
theorem C10_counterexample :
    run_cli parse_any heuristic_const "message_to_command_ratio" []
      ⟨[], some [["checksum", "c", "x"]], "c"⟩ =
      (.fatal "ValueError", some [["checksum", "c", "x"]]) := by decide

/-- C10 amended: the cache decision reads only the first row — the body is
never validated and never affects the decision — and whenever the first
row has exactly two fields with the second equal to the current
fingerprint, the run is a cache hit regardless of the body rows. -/
theorem C10_amended_first_row_only (c x : String) (row : List String)
    (body body' : List (List String)) (parse : String → Option Event)
    (heuristic : Heuristic) (name : String) (sched : List Nat)
    (dirs : List (String × Dir))
    (hname : heuristics_module_attrs.contains name = true) :
    cache_check (some (row :: body)) c = cache_check (some (row :: body')) c
    ∧ run_cli parse heuristic name sched ⟨dirs, some ([x, c] :: body), c⟩ =
        (.cache_hit, some ([x, c] :: body)) := by
  refine ⟨rfl, ?_⟩
  have hmem : name ∈ heuristics_module_attrs := by simpa using hname
  unfold run_cli
  simp [get_heuristic, hmem, cache_check]

/-- Witness for C10's amended statement at concrete inputs (a garbage
body differing between the two reads). -/
theorem C10_amended_first_row_only_witness :
    cache_check (some ([["k", "c"], ["junk"]])) "c" =
      cache_check (some ([["k", "c"], ["other", "garbage"]])) "c"
    ∧ run_cli parse_any heuristic_const "message_to_command_ratio" []
        ⟨[], some ([["k", "c"], ["junk"]]), "c"⟩ =
        (.cache_hit, some ([["k", "c"], ["junk"]])) :=
  C10_amended_first_row_only "c" "k" ["k", "c"] [["junk"]] [["other", "garbage"]]
    parse_any heuristic_const "message_to_command_ratio" [] [] (by decide)

/-! ## C6 -/

/-- C6: when a well-formed result table exists and its stored fingerprint
equals the freshly computed one, the run is a cache hit: it terminates
successfully, the outcome does not depend on the decoder, heuristic,
schedule or dataset contents (zero scoring work), and the table on disk is
unchanged. -/
theorem C6_cache_hit_short_circuit (parse : String → Option Event)
    (heuristic : Heuristic) (name : String) (sched : List Nat)
    (dirs : List (String × Dir)) (c : String) (rest : List (List String))
    (hname : heuristics_module_attrs.contains name = true) :
    run_cli parse heuristic name sched ⟨dirs, some (["checksum", c] :: rest), c⟩ =
      (.cache_hit, some (["checksum", c] :: rest)) := by
  have hmem : name ∈ heuristics_module_attrs := by simpa using hname
  unfold run_cli
  simp [get_heuristic, hmem, cache_check]

/-- Witness for C6 at concrete inputs: a dataset with one unit whose
scoring would fail does not matter — the hit short-circuits. -/
theorem C6_cache_hit_short_circuit_witness :
    run_cli parse_fix heuristic_count "message_to_command_ratio" [0]
      ⟨[("u1", [("a.gz", .valid ["bad"])])],
        some [["checksum", "c"], ["u1", "1"]], "c"⟩ =
      (.cache_hit, some [["checksum", "c"], ["u1", "1"]]) :=
  C6_cache_hit_short_circuit parse_fix heuristic_count "message_to_command_ratio"
    [0] [("u1", [("a.gz", .valid ["bad"])])] "c" [["u1", "1"]] (by decide)

/-! ## C4 -/

/-- Counterexample to C4: "Heuristic" — the typing alias defined at the
bottom of `heuristics/__init__.py` — is not a registered heuristic (it is
not in `__all__`), yet `getattr(heuristics, "Heuristic")` succeeds, so the
lookup does not fail and the run proceeds past configuration and
dispatches scoring. -/
theorem C4_counterexample :
    get_heuristic "Heuristic" = .ok "Heuristic"
    ∧ heuristics_all.contains "Heuristic" = false
    ∧ (run_cli parse_any heuristic_const "Heuristic" [] ⟨[], none, "c"⟩).1 =
        .completed :=
  ⟨rfl, by decide, by decide⟩

/-- C4 amended: lookup fails fatally exactly for names that are not
attributes of the `heuristics` module; for those the run aborts with
`AttributeError` before any work — the dataset, decoder, heuristic and
schedule are never consulted and the result file is untouched. A module
attribute outside the `__all__` registry is returned without error. -/
theorem C4_amended_unknown_attribute (name : String)
    (hattr : heuristics_module_attrs.contains name = false)
    (parse : String → Option Event) (heuristic : Heuristic)
    (sched : List Nat) (st : DatasetState) :
    get_heuristic name = .error ("AttributeError: " ++ name)
    ∧ run_cli parse heuristic name sched st =
        (.fatal ("AttributeError: " ++ name), st.result_file) := by
  have hnmem : ¬ name ∈ heuristics_module_attrs := by simpa using hattr
  have hg : get_heuristic name = .error ("AttributeError: " ++ name) := by
    simp [get_heuristic, hnmem]
  refine ⟨hg, ?_⟩
  unfold run_cli
  rw [hg]

/-- Witness for C4's amended statement at a concrete unknown name. -/
theorem C4_amended_unknown_attribute_witness :
    get_heuristic "no_such_heuristic" = .error ("AttributeError: " ++ "no_such_heuristic")
    ∧ run_cli parse_any heuristic_const "no_such_heuristic" [0]
        ⟨[("u1", [])], some [["checksum", "c"]], "c"⟩ =
        (.fatal ("AttributeError: " ++ "no_such_heuristic"), some [["checksum", "c"]]) :=
  C4_amended_unknown_attribute "no_such_heuristic" (by decide) parse_any
    heuristic_const [0] ⟨[("u1", [])], some [["checksum", "c"]], "c"⟩

/-! ## Scheduler lemmas -/

/-- Any completed job record for index `i` carries the value `f i`, so
finding index `i` among the completions of any schedule containing `i`
yields exactly `(i, f i)`. -/
theorem completions_find (f : Nat → Except String (String × ℚ)) :
    ∀ (sched : List Nat) (i : Nat), i ∈ sched →
      (completions f sched).find? (fun p => p.1 == i) = some (i, f i)
  | [], i, h => by simp at h
  | j :: sched, i, h => by
    by_cases hji : j = i
    · subst hji
      simp [completions, List.find?]
    · have hi : i ∈ sched := by
        rcases List.mem_cons.mp h with rfl | h'
        · exact absurd rfl hji
        · exact h'
      have hji' : (j == i) = false := beq_eq_false_iff_ne.mpr hji
      simpa [completions, List.find?, hji'] using completions_find f sched i hi

/-- Reassembling the completions of any schedule that is a permutation of
the job indices recovers the jobs in input order. -/
theorem gather_perm (f : Nat → Except String (String × ℚ)) {n : Nat}
    {sched : List Nat} (h : sched.Perm (List.range n)) :
    gather n (completions f sched) = (List.range n).map f := by
  unfold gather
  apply List.map_congr_left
  intro i hi
  have hmem : i ∈ sched := h.mem_iff.mpr hi
  rw [completions_find f sched i hmem]

/-- If some element of the list is an error, consuming the list re-raises
an error. -/
theorem collect_error : ∀ (l : List (Except String (String × ℚ))) (e : String),
    (Except.error e) ∈ l → ∃ msg, collect l = .error msg
  | [], e, h => by simp at h
  | r :: rs, e, h => by
    match r with
    | .error e' => exact ⟨e', rfl⟩
    | .ok x =>
      have hrs : Except.error e ∈ rs := by
        rcases List.mem_cons.mp h with hc | h'
        · cases hc
        · exact h'
      obtain ⟨msg, hmsg⟩ := collect_error rs e hrs
      exact ⟨msg, by simp [collect, hmsg]⟩

/-! ## C9 -/

/-- C9: for a fixed dataset and fixed pure heuristic, the run's outcome —
in particular the written result table, fingerprint header and row order
included — is identical under any two completion schedules of the worker
pool. Worker-pool size and chunking influence only which schedule occurs,
so repeated cache-missing runs produce identical tables. -/
theorem C9_schedule_determinism (parse : String → Option Event)
    (heuristic : Heuristic) (name : String) (st : DatasetState)
    (sched1 sched2 : List Nat)
    (h1 : sched1.Perm (List.range (get_combat_dirs st).length))
    (h2 : sched2.Perm (List.range (get_combat_dirs st).length)) :
    run_cli parse heuristic name sched1 st = run_cli parse heuristic name sched2 st := by
  unfold run_cli process_map
  rw [gather_perm _ h1, gather_perm _ h2]

/-- Witness for C9: two opposite completion orders over a two-unit
dataset. -/
theorem C9_schedule_determinism_witness :
    run_cli parse_fix heuristic_count "message_to_command_ratio" [1, 0]
      ⟨[("u1", [("a.gz", .valid ["ok"])]), ("u2", [])], none, "c"⟩ =
    run_cli parse_fix heuristic_count "message_to_command_ratio" [0, 1]
      ⟨[("u1", [("a.gz", .valid ["ok"])]), ("u2", [])], none, "c"⟩ :=
  C9_schedule_determinism parse_fix heuristic_count "message_to_command_ratio"
    ⟨[("u1", [("a.gz", .valid ["ok"])]), ("u2", [])], none, "c"⟩
    [1, 0] [0, 1] (by decide) (by decide)

/-! ## C7 -/

/-- C7: if scoring any single unit raises an unhandled failure (for
example a malformed event record in that unit), the whole run aborts
fatally and the result file is left exactly as it was — no partial table
is written for the units already scored. -/
theorem C7_unit_failure_aborts_run (parse : String → Option Event)
    (heuristic : Heuristic) (name : String) (sched : List Nat)
    (st : DatasetState)
    (hname : heuristics_module_attrs.contains name = true)
    (hmiss : cache_check st.result_file st.dataset_checksum = .ok false)
    (hsched : sched.Perm (List.range (get_combat_dirs st).length))
    (nd : String × Dir) (hmem : nd ∈ get_combat_dirs st) (e : String)
    (hfail : worker_entrypoint parse heuristic nd.1 nd.2 = .error e) :
    ∃ msg, run_cli parse heuristic name sched st = (.fatal msg, st.result_file) := by
  have hmemname : name ∈ heuristics_module_attrs := by simpa using hname
  obtain ⟨i, hnd⟩ := List.getElem?_of_mem hmem
  have hlt : i < (get_combat_dirs st).length := by
    rcases List.getElem?_eq_some_iff.mp hnd with ⟨h, _⟩
    exact h
  have hjob : jobs parse heuristic (get_combat_dirs st) i = .error e := by
    unfold jobs
    rw [hnd]
    exact hfail
  have hmemerr : Except.error e ∈ (List.range (get_combat_dirs st).length).map
      (jobs parse heuristic (get_combat_dirs st)) := by
    rw [← hjob]
    exact List.mem_map_of_mem _ (List.mem_range.mpr hlt)
  obtain ⟨msg, hmsg⟩ : ∃ msg,
      process_map parse heuristic (get_combat_dirs st) sched = .error msg := by
    unfold process_map
    rw [gather_perm _ hsched]
    exact collect_error _ e hmemerr
  refine ⟨msg, ?_⟩
  unfold run_cli
  simp [get_heuristic, hmemname, hmiss, hmsg]

/-- Witness for C7: a one-unit dataset whose only unit has a malformed
line, over a stale existing table; the run aborts and the stale table
survives untouched. -/
theorem C7_unit_failure_aborts_run_witness :
    ∃ msg, run_cli parse_fix heuristic_count "message_to_command_ratio" [0]
      ⟨[("u1", [("a.gz", .valid ["bad"])])], some [["checksum", "old"]], "c"⟩ =
      (.fatal msg, some [["checksum", "old"]]) :=
  C7_unit_failure_aborts_run parse_fix heuristic_count "message_to_command_ratio"
    [0] ⟨[("u1", [("a.gz", .valid ["bad"])])], some [["checksum", "old"]], "c"⟩
    (by decide) (by decide) (by decide)
    ("u1", [("a.gz", .valid ["bad"])]) (by decide) "JSONDecodeError: bad" (by decide)

end HeuristicWorker
